import Mathlib

/-!
Shallow embedding of the Maya texture-UV export scripts
`Extraction_AnimData.py` (first variant) and `Extraction_AnimData_Final.py`
(second variant).

The host application (Maya) is modelled as a `Scene`: a record of the
responses the `cmds` API gives to the queries the scripts perform.
Attribute values returned by `cmds.getAttr` are modelled as integers
indexed by the current frame (the scripts scrub the timeline with
`cmds.currentTime(f)` before reading, so a read performed after setting
the time to `f` is modelled as a read at index `f`).  The value `None`
that `get_active_image` can return is modelled with `Option Int`.
-/

/-- Lowercasing of a Python string (`s.lower()`), character by character. -/
def lowerStr (s : String) : String := String.mk (s.data.map Char.toLower)

/-- Substring test on character lists: does `needle` occur contiguously in
the second list?  Models the Python expression `needle in hay` on strings. -/
def containsSub (needle : List Char) : List Char → Bool
  | [] => needle.isEmpty
  | c :: t => needle.isPrefixOf (c :: t) || containsSub needle t

/-- Python `needle in hay` for strings. -/
def strIn (needle hay : String) : Bool := containsSub needle.data hay.data

/-- The host scene: responses of the `cmds` API as used by the scripts.
`getAttr a f` is the value of attribute path `a` when the current time is
frame `f`; `objExists` answers `cmds.objExists`; `listConn a` is the list
returned by `cmds.listConnections(a, s=True, d=False)`; `selList` is
`cmds.ls(sl=True)`; `materialsOf` and `fileTexturesOf` model the results of
the host-API traversals `get_materials_from_geo` and
`get_file_textures_from_material` (pure `cmds` plumbing over shading
connections and node history); `lsTransCorr`, `lsScaleUCorr` and
`lsScaleVCorr` are the results of `cmds.ls` for the wildcard patterns
`Translation_Corr_*`, `ScaleU_corr_*` and `ScaleV_corr_*` with node type
`multiplyDivide`; `pbMin`/`pbMax` are `int(cmds.playbackOptions(min/max))`. -/
structure Scene where
  getAttr : String → Int → Int
  objExists : String → Bool
  listConn : String → List String
  selList : List String
  materialsOf : String → List String
  fileTexturesOf : String → List String
  lsTransCorr : List String
  lsScaleUCorr : List String
  lsScaleVCorr : List String
  pbMin : Int
  pbMax : Int

/-- `get_place2d` (identical in both source files): the first node connected
to `file_node.uvCoord`, or `None`. -/
def get_place2d (s : Scene) (file_node : String) : Option String :=
  (s.listConn (file_node ++ ".uvCoord")).head?

/-- `get_active_image` (identical in both source files): the
`frameExtension` attribute when the `useFrameExtension` attribute exists and
is truthy, else `None`.  Truthiness of the integer attribute is `≠ 0`. -/
def get_active_image (s : Scene) (file_node : String) (f : Int) : Option Int :=
  if s.objExists (file_node ++ ".useFrameExtension") then
    if s.getAttr (file_node ++ ".useFrameExtension") f ≠ 0 then
      some (s.getAttr (file_node ++ ".frameExtension") f)
    else none
  else none

/-- The keyword tuple scanned by `_keyword_from_names` in the second
variant. -/
def keywordTuple : List String := ["iris", "pupil", "eye"]

/-- `_keyword_from_names` of the second variant: for each of the two node
names (skipping empty ones), append every keyword contained in its
lowercasing, keywords tried in tuple order. -/
def keyword_from_names (file_node place_node : String) : List String :=
  ([file_node, place_node].filter (fun s => s ≠ "")).flatMap
    (fun s => keywordTuple.filter (fun k => strIn k (lowerStr s)))

/-- The early-return double loop of `get_offset_uv`: for each keyword in
order, the first node (in listing order) whose lowercase name contains it. -/
def findCorr (keys nodes : List String) : Option String :=
  match keys with
  | [] => none
  | k :: ks =>
    match nodes.find? (fun n => strIn k (lowerStr n)) with
    | some n => some n
    | none => findCorr ks nodes

/-- `get_offset_uv` of the second variant: outputs of the first
keyword-matched `Translation_Corr_*` node; else outputs of the first listed
such node when any exist; else the place2d offset attributes. -/
def get_offset_uv (s : Scene) (file_node place_node : String) (f : Int) : Int × Int :=
  let keys := keyword_from_names file_node place_node
  let nodes := s.lsTransCorr
  match findCorr keys nodes with
  | some n => (s.getAttr (n ++ ".outputX") f, s.getAttr (n ++ ".outputY") f)
  | none =>
    match nodes with
    | n0 :: _ => (s.getAttr (n0 ++ ".outputX") f, s.getAttr (n0 ++ ".outputY") f)
    | [] => (s.getAttr (place_node ++ ".offsetU") f, s.getAttr (place_node ++ ".offsetV") f)

/-- The overwrite double loop of `get_scale_uv`: scanning keywords in order
and, for each, nodes in listing order, the last node assigned (the
assignment `su = ...` in the source keeps only the final match). -/
def lastMatch (keys nodes : List String) : Option String :=
  keys.foldl
    (fun acc k => nodes.foldl (fun a n => if strIn k (lowerStr n) then some n else a) acc)
    none

/-- `get_scale_uv` of the second variant: each component independently the
`outputX` of the last keyword-assigned correction node of its family, with
the place2d repeat attribute as fallback when no assignment happened. -/
def get_scale_uv (s : Scene) (file_node place_node : String) (f : Int) : Int × Int :=
  let keys := keyword_from_names file_node place_node
  let su := match lastMatch keys s.lsScaleUCorr with
    | some n => s.getAttr (n ++ ".outputX") f
    | none => s.getAttr (place_node ++ ".repeatU") f
  let sv := match lastMatch keys s.lsScaleVCorr with
    | some n => s.getAttr (n ++ ".outputX") f
    | none => s.getAttr (place_node ++ ".repeatV") f
  (su, sv)

/-- A CSV cell as the scripts build rows: the frame number (an int), a
metadata string (geometry, material or file-node name, or a header label),
or a sampled option value (possibly `None`). -/
inductive Cell where
  | num : Int → Cell
  | txt : String → Cell
  | val : Option Int → Cell
deriving DecidableEq, Repr

/-- The `meta` dictionary passed to `export_textures`: which metadata
columns are enabled. -/
structure MetaFlags where
  geo : Bool
  mat : Bool
  file : Bool
deriving DecidableEq, Repr

/-- The metadata cells appended to a data row, in source order. -/
def metaCells (meta : MetaFlags) (geo mat file_node : String) : List Cell :=
  (if meta.geo then [Cell.txt geo] else []) ++
  (if meta.mat then [Cell.txt mat] else []) ++
  (if meta.file then [Cell.txt file_node] else [])

/-- One data row: `[f]` plus enabled metadata plus the sampled values, as
both variants build it. -/
def mkRow (meta : MetaFlags) (geo mat file_node : String) (f : Int)
    (st : List (Option Int)) : List Cell :=
  Cell.num f :: (metaCells meta geo mat file_node ++ st.map Cell.val)

/-- The header row: `"Frame"`, the enabled metadata labels, then the option
names, as both variants build it. -/
def headerRow (meta : MetaFlags) (options : List String) : List Cell :=
  Cell.txt "Frame" ::
    ((if meta.geo then [Cell.txt "Geometry"] else []) ++
     (if meta.mat then [Cell.txt "Material"] else []) ++
     (if meta.file then [Cell.txt "FileTexture"] else []) ++
     options.map Cell.txt)

/-- Python `range(start, stop + 1)` over integers: the frames visited by
the export loop of both variants. -/
def frameRange (start stop : Int) : List Int :=
  (List.range (stop + 1 - start).toNat).map (fun (i : Nat) => start + (i : Int))

/-- The per-frame collection loop shared by both variants, parameterised by
the frame sampling function.  It returns the (frame, state) pairs for which
a row is recorded: a frame is kept when `collect_all` is set or when its
sampled state differs from `last_state`, which starts as the `None`
sentinel and is updated to the state of each recorded frame. -/
def exportLoop (collect_all : Bool) (sample : Int → List (Option Int)) :
    List Int → Option (List (Option Int)) → List (Int × List (Option Int))
  | [], _ => []
  | f :: fs, last =>
    let st := sample f
    if collect_all ∨ some st ≠ last then
      (f, st) :: exportLoop collect_all sample fs (some st)
    else
      exportLoop collect_all sample fs last

/-- Index of the last occurrence of `c` in `l` (Python `str.rfind`,
returning `none` instead of `-1` when absent). -/
def rfindIdx (l : List Char) (c : Char) : Option Nat :=
  match l.reverse.findIdx? (fun a => a == c) with
  | some j => some (l.length - 1 - j)
  | none => none

/-- POSIX `os.path.basename`: everything after the last slash. -/
def basename (p : String) : String :=
  match rfindIdx p.data '/' with
  | some i => String.mk (p.data.drop (i + 1))
  | none => p

/-- POSIX `os.path.dirname`: everything up to and including the last slash,
then with trailing slashes stripped unless the head is all slashes. -/
def dirname (p : String) : String :=
  match rfindIdx p.data '/' with
  | none => ""
  | some i =>
    let head := p.data.take (i + 1)
    if head.any (fun c => c ≠ '/') then
      String.mk ((head.reverse.dropWhile (fun c => c == '/')).reverse)
    else String.mk head

/-- The root part of POSIX `os.path.splitext` for a name without slashes
(the scripts apply it to a basename): cut at the last dot provided some
character strictly before that dot is not itself a dot. -/
def splitextRoot (p : String) : String :=
  match rfindIdx p.data '.' with
  | none => p
  | some d =>
    if (p.data.take d).any (fun c => c ≠ '.') then String.mk (p.data.take d) else p

/-- Does the string start with a slash? (`b.startswith('/')`). -/
def startsWithSlash (b : String) : Bool :=
  match b.data with
  | [] => false
  | c :: _ => c == '/'

/-- Does the string end with a slash? (`a.endswith('/')`). -/
def endsWithSlash (a : String) : Bool :=
  match a.data.getLast? with
  | some c => c == '/'
  | none => false

/-- POSIX `os.path.join` for two components as the scripts use it. -/
def joinPath (a b : String) : String :=
  if startsWithSlash b then b
  else if a = "" ∨ endsWithSlash a then a ++ b
  else a ++ "/" ++ b

/-- The CSV path computed for a texture in both variants:
`os.path.join(dirname(EXPORT_PATH), base_name + "_" + file_node + ".csv")`
with `base_name = splitext(basename(EXPORT_PATH))[0]`. -/
def csv_path (export_path file_node : String) : String :=
  joinPath (dirname export_path)
    (splitextRoot (basename export_path) ++ "_" ++ file_node ++ ".csv")

/-- The option list built by `run_export` (identical in both source files):
a key is appended exactly when its checkbox is ticked, scanned in the fixed
order ActiveImage, OffsetU, OffsetV, ScaleU, ScaleV, RotateUV. -/
def run_export_options (img ou ov su sv r : Bool) : List String :=
  (if img then ["ActiveImage"] else []) ++
  (if ou then ["OffsetU"] else []) ++
  (if ov then ["OffsetV"] else []) ++
  (if su then ["ScaleU"] else []) ++
  (if sv then ["ScaleV"] else []) ++
  (if r then ["RotateUV"] else [])

/-- The six option keys in the fixed order `run_export` scans them. -/
def canonicalOptions : List String :=
  ["ActiveImage", "OffsetU", "OffsetV", "ScaleU", "ScaleV", "RotateUV"]

/-- Observable outcome of one `export_textures` call: the warnings issued,
the sequence of `cmds.currentTime` edits, the file writes (path and rows),
and whether the completion message was shown. -/
structure ExportOut where
  warnings : List String
  timesSet : List Int
  files : List (String × List (List Cell))
  doneMessage : Bool
deriving DecidableEq

/-- Text of one cell as `csv.writer` renders it (`None` prints empty). -/
def csvCellText : Cell → String
  | Cell.num n => toString n
  | Cell.txt s => s
  | Cell.val none => ""
  | Cell.val (some n) => toString n

/-- Minimal quoting of one CSV field, as `csv.writer` does by default. -/
def csvQuote (x : String) : String :=
  if x.data.any (fun c => c == ',' || c == '"' || c == '\n' || c == '\r') then
    "\"" ++ String.mk (x.data.flatMap (fun c => if c == '"' then ['"', '"'] else [c])) ++ "\""
  else x

/-- One serialized CSV line with the default CRLF terminator. -/
def csvLine (r : List Cell) : String :=
  String.intercalate "," (r.map (fun c => csvQuote (csvCellText c))) ++ "\r\n"

/-- The bytes of a whole CSV file from its rows. -/
def csvRender (rows : List (List Cell)) : String :=
  String.join (rows.map csvLine)

namespace ExtractionAnimData

/-- The per-frame `state`/`data` list of the first variant, built by the
fixed chain of membership tests over the place2d attributes (the source
appends the same value to `state` and `data`, so one list models both). -/
def stateAt (s : Scene) (options : List String) (file_node place : String)
    (f : Int) : List (Option Int) :=
  (if "ActiveImage" ∈ options then [get_active_image s file_node f] else []) ++
  (if "OffsetU" ∈ options then [some (s.getAttr (place ++ ".offsetU") f)] else []) ++
  (if "OffsetV" ∈ options then [some (s.getAttr (place ++ ".offsetV") f)] else []) ++
  (if "ScaleU" ∈ options then [some (s.getAttr (place ++ ".repeatU") f)] else []) ++
  (if "ScaleV" ∈ options then [some (s.getAttr (place ++ ".repeatV") f)] else []) ++
  (if "RotateUV" ∈ options then [some (s.getAttr (place ++ ".rotateUV") f)] else [])

/-- The body of the texture loop of the first variant for one
(material, file node) pair: the `cmds.currentTime` edits it performs and the
file writes it performs.  `texBoxes fn` is `None` when `fn` is not in
`TEXTURE_CHECKBOXES` and otherwise the queried checkbox value.  The file is
written only when `rows` is non-empty (`if rows:` in the source). -/
def processTexture (s : Scene) (export_path : String)
    (texBoxes : String → Option Bool) (options : List String)
    (meta : MetaFlags) (collect_all : Bool) (geo mat file_node : String) :
    List Int × List (String × List (List Cell)) :=
  match texBoxes file_node with
  | none => ([], [])
  | some checked =>
    if checked then
      match get_place2d s file_node with
      | none => ([], [])
      | some place =>
        let frames := frameRange s.pbMin s.pbMax
        let kept := exportLoop collect_all (stateAt s options file_node place) frames none
        let rows := kept.map (fun fr => mkRow meta geo mat file_node fr.1 fr.2)
        (frames,
         if rows = [] then []
         else [(csv_path export_path file_node, headerRow meta options :: rows)])
    else ([], [])

/-- `export_textures` of the first variant (`Extraction_AnimData.py`): the
two precondition guards, then the material/texture loops, concatenating the
timeline edits and file writes of each processed texture. -/
def export_textures (s : Scene) (export_path : String)
    (texBoxes : String → Option Bool) (options : List String)
    (meta : MetaFlags) (collect_all : Bool) : ExportOut :=
  if export_path = "" then
    { warnings := ["Choose an export path."], timesSet := [], files := [], doneMessage := false }
  else
    match s.selList with
    | [] =>
      { warnings := ["Select geometry."], timesSet := [], files := [], doneMessage := false }
    | geo :: _ =>
      let results := (s.materialsOf geo).flatMap (fun mat =>
        (s.fileTexturesOf mat).map (fun fn =>
          processTexture s export_path texBoxes options meta collect_all geo mat fn))
      { warnings := [],
        timesSet := results.flatMap (fun r => r.1),
        files := results.flatMap (fun r => r.2),
        doneMessage := true }

end ExtractionAnimData

namespace ExtractionAnimDataFinal

/-- The entries of the per-frame `current` dictionary of the second
variant.  The source only ever reads `current[o]` for option keys it has
just stored (any other key would raise `KeyError`); unknown keys are
modelled as `none` and never reached under the option lists `run_export`
builds. -/
def currentVal (s : Scene) (file_node place : String) (f : Int) : String → Option Int
  | "ActiveImage" => get_active_image s file_node f
  | "OffsetU" => some (get_offset_uv s file_node place f).1
  | "OffsetV" => some (get_offset_uv s file_node place f).2
  | "ScaleU" => some (get_scale_uv s file_node place f).1
  | "ScaleV" => some (get_scale_uv s file_node place f).2
  | "RotateUV" => some (s.getAttr (place ++ ".rotateUV") f)
  | _ => none

/-- The per-frame `state` list of the second variant:
`[current[o] for o in options]`. -/
def stateAt (s : Scene) (options : List String) (file_node place : String)
    (f : Int) : List (Option Int) :=
  options.map (currentVal s file_node place f)

/-- The (frame, state) pairs recorded for one texture by the second
variant: its rows, `curve_frames` and `curve_values` entries are all
appended under the same `collect_all or state != last_state` test. -/
def kept (s : Scene) (options : List String) (file_node place : String)
    (collect_all : Bool) : List (Int × List (Option Int)) :=
  exportLoop collect_all (stateAt s options file_node place)
    (frameRange s.pbMin s.pbMax) none

/-- `curve_frames` for one texture: the frames of the recorded pairs. -/
def curveFrames (s : Scene) (options : List String) (file_node place : String)
    (collect_all : Bool) : List Int :=
  (kept s options file_node place collect_all).map (fun fr => fr.1)

/-- `curve_values[opt]` for one texture: `current[opt]` of each recorded
frame. -/
def curveValues (s : Scene) (options : List String) (file_node place : String)
    (collect_all : Bool) (opt : String) : List (Option Int) :=
  (kept s options file_node place collect_all).map
    (fun fr => currentVal s file_node place fr.1 opt)

/-- The rows written to one CSV file by the second variant: header plus data
rows in `datatable` mode, otherwise the frame row and one row per option. -/
def fileContent (s : Scene) (options : List String) (meta : MetaFlags)
    (export_mode : String) (collect_all : Bool) (geo mat file_node place : String) :
    List (List Cell) :=
  if export_mode = "datatable" then
    headerRow meta options ::
      (kept s options file_node place collect_all).map
        (fun fr => mkRow meta geo mat file_node fr.1 fr.2)
  else
    (Cell.txt "" :: (curveFrames s options file_node place collect_all).map Cell.num) ::
      options.map (fun opt =>
        Cell.txt opt ::
          (curveValues s options file_node place collect_all opt).map Cell.val)

/-- The body of the texture loop of the second variant for one
(material, file node) pair.  Unlike the first variant there is no
`if rows:` guard: the file is always written once the texture qualifies. -/
def processTexture (s : Scene) (export_path : String)
    (texBoxes : String → Option Bool) (options : List String)
    (meta : MetaFlags) (export_mode : String) (collect_all : Bool)
    (geo mat file_node : String) :
    List Int × List (String × List (List Cell)) :=
  match texBoxes file_node with
  | none => ([], [])
  | some checked =>
    if checked then
      match get_place2d s file_node with
      | none => ([], [])
      | some place =>
        (frameRange s.pbMin s.pbMax,
         [(csv_path export_path file_node,
           fileContent s options meta export_mode collect_all geo mat file_node place)])
    else ([], [])

/-- `export_textures` of the second variant
(`Extraction_AnimData_Final.py`): the same two precondition guards, then
the material/texture loops. -/
def export_textures (s : Scene) (export_path : String)
    (texBoxes : String → Option Bool) (options : List String)
    (meta : MetaFlags) (export_mode : String) (collect_all : Bool) : ExportOut :=
  if export_path = "" then
    { warnings := ["Choose an export path."], timesSet := [], files := [], doneMessage := false }
  else
    match s.selList with
    | [] =>
      { warnings := ["Select geometry."], timesSet := [], files := [], doneMessage := false }
    | geo :: _ =>
      let results := (s.materialsOf geo).flatMap (fun mat =>
        (s.fileTexturesOf mat).map (fun fn =>
          processTexture s export_path texBoxes options meta export_mode collect_all geo mat fn))
      { warnings := [],
        timesSet := results.flatMap (fun r => r.1),
        files := results.flatMap (fun r => r.2),
        doneMessage := true }

end ExtractionAnimDataFinal

/-- A small concrete scene used to instantiate theorems with hypotheses:
one geometry, one material, one file texture connected to one place2d node,
playback range 1..3, an animated image sequence on the file node, and no
correction nodes. -/
def demoScene : Scene where
  getAttr := fun a f =>
    if a = "fileA.useFrameExtension" then 1
    else if a = "fileA.frameExtension" then 5
    else if a = "place2dA.offsetU" then f
    else 0
  objExists := fun a => decide (a = "fileA.useFrameExtension")
  listConn := fun a => if a = "fileA.uvCoord" then ["place2dA"] else []
  selList := ["geoA"]
  materialsOf := fun _ => ["matA"]
  fileTexturesOf := fun _ => ["fileA"]
  lsTransCorr := []
  lsScaleUCorr := []
  lsScaleVCorr := []
  pbMin := 1
  pbMax := 3

/-- `demoScene` with nothing selected, for the selection guard. -/
def demoSceneNoSel : Scene := { demoScene with selList := [] }

/-- Reference recursion for the Changes Only mode, phrased the way the
specification reads: carry the most recently written frame (initially the
`None` sentinel) and record a frame exactly when its sampled values differ
from the sampled values of that frame. -/
def dedupSpec (sample : Int → List (Option Int)) : List Int → Option Int → List Int
  | [], _ => []
  | f :: fs, lastW =>
    if some (sample f) ≠ lastW.map sample then f :: dedupSpec sample fs (some f)
    else dedupSpec sample fs lastW

/-- Scene refuting C2 as stated: one `Translation_Corr_*` node whose name
contains no keyword, and a file/place pair whose names derive no keyword. -/
def cexScene2 : Scene where
  getAttr := fun a _ =>
    if a = "Translation_Corr_mouth.outputX" then 5
    else if a = "Translation_Corr_mouth.outputY" then 6
    else if a = "p2d.offsetU" then 7
    else if a = "p2d.offsetV" then 8
    else 0
  objExists := fun _ => false
  listConn := fun _ => []
  selList := []
  materialsOf := fun _ => []
  fileTexturesOf := fun _ => []
  lsTransCorr := ["Translation_Corr_mouth"]
  lsScaleUCorr := []
  lsScaleVCorr := []
  pbMin := 0
  pbMax := 0

/-- Scene refuting C3 as stated: the derived keywords are
`["iris", "eye"]` and the two `ScaleU_corr_*` nodes each contain exactly
one of them, listed so that the nested loops' final assignment is NOT the
last listed keyword-containing node. -/
def cexScene3 : Scene where
  getAttr := fun a _ =>
    if a = "ScaleU_corr_eye1.outputX" then 1
    else if a = "ScaleU_corr_iris1.outputX" then 2
    else if a = "p.repeatU" then 3
    else if a = "p.repeatV" then 4
    else 0
  objExists := fun _ => false
  listConn := fun _ => []
  selList := []
  materialsOf := fun _ => []
  fileTexturesOf := fun _ => []
  lsTransCorr := []
  lsScaleUCorr := ["ScaleU_corr_eye1", "ScaleU_corr_iris1"]
  lsScaleVCorr := []
  pbMin := 0
  pbMax := 0

/-- The per-option attribute read of the first variant, as an
option-indexed view: the value the fixed membership chain of its `stateAt`
appends for each option key.  Used to relate the chain to
`options.map`. -/
def ExtractionAnimData.attrVal (s : Scene) (file_node place : String) (f : Int) :
    String → Option Int
  | "ActiveImage" => get_active_image s file_node f
  | "OffsetU" => some (s.getAttr (place ++ ".offsetU") f)
  | "OffsetV" => some (s.getAttr (place ++ ".offsetV") f)
  | "ScaleU" => some (s.getAttr (place ++ ".repeatU") f)
  | "ScaleV" => some (s.getAttr (place ++ ".repeatV") f)
  | "RotateUV" => some (s.getAttr (place ++ ".rotateUV") f)
  | _ => none


theorem exportLoop_false_dedup (sample : Int → List (Option Int)) :
    ∀ (frames : List Int) (lastF : Option Int),
      (exportLoop false sample frames (lastF.map sample)).map (fun fr => fr.1) =
        dedupSpec sample frames lastF := by
  intro frames
  induction frames with
  | nil => intro lastF; rfl
  | cons f fs ih =>
    intro lastF
    unfold exportLoop dedupSpec
    simp only [Bool.false_eq_true, false_or]
    by_cases h : some (sample f) ≠ lastF.map sample
    · rw [if_pos h, if_pos h, List.map_cons]
      exact congrArg (List.cons f) (ih (some f))
    · rw [if_neg h, if_neg h]
      exact ih lastF

theorem exportLoop_false_chain (sample : Int → List (Option Int)) :
    ∀ (frames : List Int) (last : Option (List (Option Int))),
      List.Chain' (fun a b : Int × List (Option Int) => a.2 ≠ b.2)
        (exportLoop false sample frames last) ∧
      (∀ p, (exportLoop false sample frames last).head? = some p → some p.2 ≠ last) := by
  intro frames
  induction frames with
  | nil =>
    intro last
    exact ⟨List.chain'_nil, fun p h => by simp [exportLoop] at h⟩
  | cons f fs ih =>
    intro last
    unfold exportLoop
    simp only [Bool.false_eq_true, false_or]
    by_cases h : some (sample f) ≠ last
    · rw [if_pos h]
      constructor
      · rw [List.chain'_cons']
        refine ⟨?_, (ih (some (sample f))).1⟩
        intro y hy
        have hne := (ih (some (sample f))).2 y hy
        intro hc
        exact hne (by rw [← hc])
      · intro p hp
        simp only [List.head?_cons, Option.some.injEq] at hp
        rw [← hp]
        exact h
    · rw [if_neg h]
      exact ih last

theorem exportLoop_true_map (sample : Int → List (Option Int)) :
    ∀ (frames : List Int) (last : Option (List (Option Int))),
      exportLoop true sample frames last = frames.map (fun f => (f, sample f)) := by
  intro frames
  induction frames with
  | nil => intro last; rfl
  | cons f fs ih =>
    intro last
    unfold exportLoop
    rw [if_pos (Or.inl rfl), List.map_cons, ih]

/-- C1: In Changes Only mode (`collect_all` false) the recorded frames are
exactly those whose sampled option values differ from those of the most
recently recorded frame (`dedupSpec` carries the most recently written
frame, starting from the `None` sentinel); consequently no two consecutive
recorded rows carry equal states, and the first frame of a non-empty range
is always recorded.  Both variants record rows through `exportLoop` with
their respective sampling functions. -/
theorem claim_C1_dedup (sample : Int → List (Option Int)) (frames : List Int) :
    ((exportLoop false sample frames none).map (fun fr => fr.1) =
        dedupSpec sample frames none) ∧
    List.Chain' (fun a b : Int × List (Option Int) => a.2 ≠ b.2)
      (exportLoop false sample frames none) ∧
    (∀ f fs, frames = f :: fs →
      (exportLoop false sample frames none).head? = some (f, sample f)) := by
  refine ⟨exportLoop_false_dedup sample frames none, (exportLoop_false_chain sample frames none).1, ?_⟩
  intro f fs hf
  subst hf
  unfold exportLoop
  rw [if_pos (Or.inr (by simp))]
  rfl

/-- Closed instance of `claim_C1_dedup` on a concrete sampling function and
frame list. -/
theorem claim_C1_witness :
    (exportLoop false (fun f => [some (if f < 2 then (0 : Int) else 1)]) [0, 1, 2, 3] none).map
        (fun fr => fr.1) = [0, 2] ∧
    (exportLoop false (fun f => [some (if f < 2 then (0 : Int) else 1)]) [0, 1, 2, 3] none).head? =
      some (0, [some 0]) := by
  have h := claim_C1_dedup (fun f => [some (if f < 2 then (0 : Int) else 1)]) [0, 1, 2, 3]
  refine ⟨?_, ?_⟩
  · rw [h.1]; decide
  · rw [h.2.2 0 [1, 2, 3] rfl]; decide

/-- C10: `get_active_image` returns the `frameExtension` value exactly when
the `useFrameExtension` attribute exists and is truthy, and `None` in every
other case; a `None` entry renders as an empty CSV cell. -/
theorem claim_C10_active_image (s : Scene) (fn : String) (f : Int) :
    (∀ v : Int, get_active_image s fn f = some v ↔
      s.objExists (fn ++ ".useFrameExtension") = true ∧
      s.getAttr (fn ++ ".useFrameExtension") f ≠ 0 ∧
      v = s.getAttr (fn ++ ".frameExtension") f) ∧
    (get_active_image s fn f = none ↔
      ¬(s.objExists (fn ++ ".useFrameExtension") = true ∧
        s.getAttr (fn ++ ".useFrameExtension") f ≠ 0)) ∧
    (get_active_image s fn f = none →
      csvCellText (Cell.val (get_active_image s fn f)) = "") := by
  unfold get_active_image
  split_ifs with h1 h2
  · simp [h1, h2, csvCellText, eq_comm]
  · simp [h1, h2, csvCellText]
  · simp [h1, csvCellText]

/-- Closed instance of `claim_C10_active_image` on `demoScene`, whose file
node is an animated image sequence with `frameExtension` 5. -/
theorem claim_C10_witness : get_active_image demoScene "fileA" 0 = some 5 :=
  ((claim_C10_active_image demoScene "fileA" 0).1 5).mpr ⟨by decide, by decide, by decide⟩

/-- C8: with an empty export path, or with a non-empty path but an empty
selection, both variants only issue the corresponding warning and return:
no timeline edit, no file write, no completion message. -/
theorem claim_C8_guards (s : Scene) (export_path : String)
    (texBoxes : String → Option Bool) (options : List String) (meta : MetaFlags)
    (export_mode : String) (collect_all : Bool) :
    (ExtractionAnimData.export_textures s "" texBoxes options meta collect_all =
      { warnings := ["Choose an export path."], timesSet := [], files := [],
        doneMessage := false }) ∧
    (export_path ≠ "" → s.selList = [] →
      ExtractionAnimData.export_textures s export_path texBoxes options meta collect_all =
      { warnings := ["Select geometry."], timesSet := [], files := [],
        doneMessage := false }) ∧
    (ExtractionAnimDataFinal.export_textures s "" texBoxes options meta export_mode collect_all =
      { warnings := ["Choose an export path."], timesSet := [], files := [],
        doneMessage := false }) ∧
    (export_path ≠ "" → s.selList = [] →
      ExtractionAnimDataFinal.export_textures s export_path texBoxes options meta export_mode
        collect_all =
      { warnings := ["Select geometry."], timesSet := [], files := [],
        doneMessage := false }) := by
  refine ⟨?_, ?_, ?_, ?_⟩
  · simp [ExtractionAnimData.export_textures]
  · intro h1 h2
    simp [ExtractionAnimData.export_textures, h1, h2]
  · simp [ExtractionAnimDataFinal.export_textures]
  · intro h1 h2
    simp [ExtractionAnimDataFinal.export_textures, h1, h2]

/-- Closed instance of `claim_C8_guards`: the selection guard fires on a
scene with nothing selected. -/
theorem claim_C8_witness :
    ExtractionAnimData.export_textures demoSceneNoSel "out.csv" (fun _ => none) []
      ⟨true, true, true⟩ true =
    { warnings := ["Select geometry."], timesSet := [], files := [],
      doneMessage := false } :=
  (claim_C8_guards demoSceneNoSel "out.csv" (fun _ => none) [] ⟨true, true, true⟩
    "datatable" true).2.1 (by decide) rfl

/-- C4: the frame loop of both variants visits exactly the integers from
`int(playback min)` to `int(playback max)` inclusive, in strictly
increasing order; each visited frame is sampled at the time just set (the
pair recorded for frame `f` carries `sample f`); for a qualifying texture
the `cmds.currentTime` edits are exactly that frame list; and in All Frames
mode (`collect_all` true) exactly one row pair is recorded per visited
frame. -/
theorem claim_C4_frames :
    (∀ start stop f : Int, f ∈ frameRange start stop ↔ start ≤ f ∧ f ≤ stop) ∧
    (∀ start stop : Int, List.Pairwise (· < ·) (frameRange start stop)) ∧
    (∀ (sample : Int → List (Option Int)) (frames : List Int)
        (last : Option (List (Option Int))),
      exportLoop true sample frames last = frames.map (fun f => (f, sample f))) ∧
    (∀ (s : Scene) (export_path : String) (texBoxes : String → Option Bool)
        (options : List String) (meta : MetaFlags) (export_mode : String)
        (collect_all : Bool) (geo mat fn place : String),
      texBoxes fn = some true → get_place2d s fn = some place →
      (ExtractionAnimData.processTexture s export_path texBoxes options meta collect_all
          geo mat fn).1 = frameRange s.pbMin s.pbMax ∧
      (ExtractionAnimDataFinal.processTexture s export_path texBoxes options meta export_mode
          collect_all geo mat fn).1 = frameRange s.pbMin s.pbMax ∧
      exportLoop true (ExtractionAnimData.stateAt s options fn place)
          (frameRange s.pbMin s.pbMax) none =
        (frameRange s.pbMin s.pbMax).map
          (fun f => (f, ExtractionAnimData.stateAt s options fn place f))) := by
  refine ⟨?_, ?_, ?_, ?_⟩
  · intro start stop f
    unfold frameRange
    simp only [List.mem_map, List.mem_range]
    constructor
    · rintro ⟨i, hi, rfl⟩
      omega
    · intro h
      exact ⟨(f - start).toNat, by omega, by omega⟩
  · intro start stop
    unfold frameRange
    refine List.pairwise_map.mpr ?_
    exact (List.pairwise_lt_range _).imp (@fun a b hab => by omega)
  · exact fun sample frames last => exportLoop_true_map sample frames last
  · intro s export_path texBoxes options meta export_mode collect_all geo mat fn place htex hplace
    refine ⟨?_, ?_, exportLoop_true_map _ _ _⟩
    · simp [ExtractionAnimData.processTexture, htex, hplace]
    · simp [ExtractionAnimDataFinal.processTexture, htex, hplace]

/-- Closed instance of `claim_C4_frames` on `demoScene` (range 1..3). -/
theorem claim_C4_witness :
    (2 ∈ frameRange 1 3) ∧
    (ExtractionAnimData.processTexture demoScene "out.csv" (fun _ => some true)
        ["OffsetU"] ⟨true, true, true⟩ true "geoA" "matA" "fileA").1 = frameRange 1 3 := by
  have h := claim_C4_frames
  refine ⟨(h.1 1 3 2).mpr (by decide), ?_⟩
  exact (h.2.2.2 demoScene "out.csv" (fun _ => some true) ["OffsetU"] ⟨true, true, true⟩
    "datatable" true "geoA" "matA" "fileA" "place2dA" rfl (by decide)).1

theorem findCorr_some_spec (keys nodes : List String) (n : String)
    (h : findCorr keys nodes = some n) :
    n ∈ nodes ∧ ∃ k ∈ keys, strIn k (lowerStr n) = true := by
  induction keys with
  | nil => simp [findCorr] at h
  | cons k ks ih =>
    unfold findCorr at h
    cases hf : nodes.find? (fun m => strIn k (lowerStr m)) with
    | some m =>
      rw [hf] at h
      cases h
      have hp := List.find?_some hf
      exact ⟨List.mem_of_find?_eq_some hf,
        k, List.mem_cons_self k ks, by simpa using hp⟩
    | none =>
      rw [hf] at h
      obtain ⟨hmem, k2, hk2, hP⟩ := ih h
      exact ⟨hmem, k2, List.mem_cons_of_mem k hk2, hP⟩

theorem findCorr_none_of (keys nodes : List String)
    (h : ∀ k ∈ keys, ∀ m ∈ nodes, strIn k (lowerStr m) = false) :
    findCorr keys nodes = none := by
  induction keys with
  | nil => rfl
  | cons k ks ih =>
    unfold findCorr
    have hf : nodes.find? (fun m => strIn k (lowerStr m)) = none := by
      rw [List.find?_eq_none]
      intro m hm
      simp [h k (List.mem_cons_self k ks) m hm]
    rw [hf]
    exact ih (fun k2 hk2 => h k2 (List.mem_cons_of_mem k hk2))

theorem foldl_pick_spec (P : String → Bool) :
    ∀ (nodes : List String) (acc : Option String),
      (nodes.foldl (fun a m => if P m then some m else a) acc = acc ∧
        ∀ m ∈ nodes, P m = false) ∨
      (∃ m ∈ nodes, P m = true ∧
        nodes.foldl (fun a m => if P m then some m else a) acc = some m) := by
  intro nodes
  induction nodes with
  | nil =>
    intro acc
    left
    exact ⟨rfl, by simp⟩
  | cons m ms ih =>
    intro acc
    by_cases hm : P m = true
    · rcases ih (some m) with ⟨heq, _⟩ | ⟨n, hn, hPn, heq⟩
      · right
        refine ⟨m, List.mem_cons_self m ms, hm, ?_⟩
        rw [List.foldl_cons, if_pos hm]
        exact heq
      · right
        refine ⟨n, List.mem_cons_of_mem m hn, hPn, ?_⟩
        rw [List.foldl_cons, if_pos hm]
        exact heq
    · have hm2 : P m = false := by simpa using hm
      rcases ih acc with ⟨heq, hall⟩ | ⟨n, hn, hPn, heq⟩
      · left
        constructor
        · rw [List.foldl_cons, if_neg (by simp [hm2])]
          exact heq
        · intro n hn
          rcases List.mem_cons.mp hn with rfl | hn2
          · exact hm2
          · exact hall n hn2
      · right
        refine ⟨n, List.mem_cons_of_mem m hn, hPn, ?_⟩
        rw [List.foldl_cons, if_neg (by simp [hm2])]
        exact heq

theorem lastMatch_aux (nodes : List String) :
    ∀ (keys : List String) (acc : Option String) (n : String),
      keys.foldl
        (fun acc k => nodes.foldl
          (fun a m => if strIn k (lowerStr m) then some m else a) acc) acc = some n →
      acc = some n ∨
        (n ∈ nodes ∧ ∃ k ∈ keys, strIn k (lowerStr n) = true) := by
  intro keys
  induction keys with
  | nil =>
    intro acc n h
    left
    exact h
  | cons k ks ih =>
    intro acc n h
    rw [List.foldl_cons] at h
    rcases ih _ n h with hcase | hcase
    · rcases foldl_pick_spec (fun m => strIn k (lowerStr m)) nodes acc with
        ⟨heq, _⟩ | ⟨m, hm, hPm, heq⟩
      · left
        rw [heq] at hcase
        exact hcase
      · right
        rw [heq] at hcase
        cases hcase
        exact ⟨hm, k, List.mem_cons_self k ks, hPm⟩
    · right
      obtain ⟨hmem, k2, hk2, hP⟩ := hcase
      exact ⟨hmem, k2, List.mem_cons_of_mem k hk2, hP⟩

theorem lastMatch_some (keys nodes : List String) (n : String)
    (h : lastMatch keys nodes = some n) :
    n ∈ nodes ∧ ∃ k ∈ keys, strIn k (lowerStr n) = true := by
  rcases lastMatch_aux nodes keys none n h with hc | hc
  · cases hc
  · exact hc

theorem lastMatch_none_of (keys nodes : List String)
    (h : ∀ k ∈ keys, ∀ m ∈ nodes, strIn k (lowerStr m) = false) :
    lastMatch keys nodes = none := by
  unfold lastMatch
  induction keys with
  | nil => rfl
  | cons k ks ih =>
    rw [List.foldl_cons]
    have hinner : nodes.foldl
        (fun a m => if strIn k (lowerStr m) then some m else a) none = none := by
      rcases foldl_pick_spec (fun m => strIn k (lowerStr m)) nodes none with
        ⟨heq, _⟩ | ⟨m, hm, hPm, _⟩
      · exact heq
      · rw [h k (List.mem_cons_self k ks) m hm] at hPm
        cases hPm
    rw [hinner]
    exact ih (fun k2 hk2 => h k2 (List.mem_cons_of_mem k hk2))


/-- C2 counterexample: with no keyword derived from the node names (so no
keyword matches any correction node) but a `Translation_Corr_*` node
present, `get_offset_uv` returns that node's outputs (5, 6), not the
place2dTexture offset attributes (7, 8) the claim promises. -/
theorem claim_C2_counterexample :
    keyword_from_names "skin_file" "p2d" = [] ∧
    cexScene2.lsTransCorr = ["Translation_Corr_mouth"] ∧
    get_offset_uv cexScene2 "skin_file" "p2d" 0 = (5, 6) ∧
    (cexScene2.getAttr "p2d.offsetU" 0, cexScene2.getAttr "p2d.offsetV" 0) = (7, 8) ∧
    get_offset_uv cexScene2 "skin_file" "p2d" 0 ≠
      (cexScene2.getAttr "p2d.offsetU" 0, cexScene2.getAttr "p2d.offsetV" 0) := by
  decide

/-- C2 amended: `get_offset_uv` returns the outputs of the first correction
node matched by trying derived keywords in derivation order and nodes in
listing order; when no keyword matches any correction node it returns the
outputs of the FIRST LISTED correction node if any exist, and only when no
`Translation_Corr_*` correction node exists at all does it return the
place2dTexture offsetU and offsetV attributes. -/
theorem claim_C2_amended (s : Scene) (fn pl : String) (f : Int) :
    (∀ n, findCorr (keyword_from_names fn pl) s.lsTransCorr = some n →
      get_offset_uv s fn pl f =
        (s.getAttr (n ++ ".outputX") f, s.getAttr (n ++ ".outputY") f) ∧
      n ∈ s.lsTransCorr ∧
      ∃ k ∈ keyword_from_names fn pl, strIn k (lowerStr n) = true) ∧
    ((∀ k ∈ keyword_from_names fn pl, ∀ m ∈ s.lsTransCorr,
        strIn k (lowerStr m) = false) →
      (∀ n0 rest, s.lsTransCorr = n0 :: rest →
        get_offset_uv s fn pl f =
          (s.getAttr (n0 ++ ".outputX") f, s.getAttr (n0 ++ ".outputY") f)) ∧
      (s.lsTransCorr = [] →
        get_offset_uv s fn pl f =
          (s.getAttr (pl ++ ".offsetU") f, s.getAttr (pl ++ ".offsetV") f))) := by
  constructor
  · intro n hn
    refine ⟨?_, findCorr_some_spec _ _ _ hn⟩
    simp [get_offset_uv, hn]
  · intro hno
    have hnone := findCorr_none_of _ _ hno
    constructor
    · intro n0 rest hc
      rw [hc] at hnone
      simp [get_offset_uv, hc, hnone]
    · intro hc
      rw [hc] at hnone
      simp [get_offset_uv, hc, hnone]

/-- Closed instance of `claim_C2_amended` at `cexScene2`: the
first-listed-node fallback and, on a corr-free scene, the place2d
fallback. -/
theorem claim_C2_witness :
    get_offset_uv cexScene2 "skin_file" "p2d" 0 =
      (cexScene2.getAttr ("Translation_Corr_mouth" ++ ".outputX") 0,
       cexScene2.getAttr ("Translation_Corr_mouth" ++ ".outputY") 0) :=
  ((claim_C2_amended cexScene2 "skin_file" "p2d" 0).2 (by decide)).1
    "Translation_Corr_mouth" [] (by decide)


/-- C3 counterexample: the last listed `ScaleU_corr_*` node containing a
derived keyword is `ScaleU_corr_iris1` (outputX 2), but `get_scale_uv`
returns 1, the outputX of `ScaleU_corr_eye1`: the outer loop is over
keywords, so the last ASSIGNMENT comes from the last matching keyword, not
the last matching node in listing order. -/
theorem claim_C3_counterexample :
    keyword_from_names "iris_eye" "p" = ["iris", "eye"] ∧
    cexScene3.lsScaleUCorr = ["ScaleU_corr_eye1", "ScaleU_corr_iris1"] ∧
    strIn "iris" (lowerStr "ScaleU_corr_iris1") = true ∧
    (get_scale_uv cexScene3 "iris_eye" "p" 0).1 = 1 ∧
    cexScene3.getAttr ("ScaleU_corr_iris1" ++ ".outputX") 0 = 2 ∧
    (get_scale_uv cexScene3 "iris_eye" "p" 0).1 ≠
      cexScene3.getAttr ("ScaleU_corr_iris1" ++ ".outputX") 0 := by
  decide

/-- C3 amended: each scale component resolves independently to the
`outputX` of the node left by the nested scan (keywords in derivation
order, and for each keyword the nodes in listing order, keeping the most
recent match, i.e. `lastMatch`); when no derived keyword matches any node
of a family, the place2dTexture repeatU (resp. repeatV) attribute is
returned even when correction nodes of that family exist. -/
theorem claim_C3_amended (s : Scene) (fn pl : String) (f : Int) :
    (∀ n, lastMatch (keyword_from_names fn pl) s.lsScaleUCorr = some n →
      (get_scale_uv s fn pl f).1 = s.getAttr (n ++ ".outputX") f ∧
      n ∈ s.lsScaleUCorr ∧
      ∃ k ∈ keyword_from_names fn pl, strIn k (lowerStr n) = true) ∧
    ((∀ k ∈ keyword_from_names fn pl, ∀ m ∈ s.lsScaleUCorr,
        strIn k (lowerStr m) = false) →
      (get_scale_uv s fn pl f).1 = s.getAttr (pl ++ ".repeatU") f) ∧
    (∀ n, lastMatch (keyword_from_names fn pl) s.lsScaleVCorr = some n →
      (get_scale_uv s fn pl f).2 = s.getAttr (n ++ ".outputX") f ∧
      n ∈ s.lsScaleVCorr ∧
      ∃ k ∈ keyword_from_names fn pl, strIn k (lowerStr n) = true) ∧
    ((∀ k ∈ keyword_from_names fn pl, ∀ m ∈ s.lsScaleVCorr,
        strIn k (lowerStr m) = false) →
      (get_scale_uv s fn pl f).2 = s.getAttr (pl ++ ".repeatV") f) := by
  refine ⟨?_, ?_, ?_, ?_⟩
  · intro n hn
    refine ⟨?_, lastMatch_some _ _ _ hn⟩
    simp [get_scale_uv, hn]
  · intro hno
    have hnone := lastMatch_none_of _ _ hno
    simp [get_scale_uv, hnone]
  · intro n hn
    refine ⟨?_, lastMatch_some _ _ _ hn⟩
    simp [get_scale_uv, hn]
  · intro hno
    have hnone := lastMatch_none_of _ _ hno
    simp [get_scale_uv, hnone]

/-- Closed instance of `claim_C3_amended` at `cexScene3`: the U component
follows the final nested-loop assignment, the V component (no
`ScaleV_corr_*` node) falls back to repeatV. -/
theorem claim_C3_witness :
    (get_scale_uv cexScene3 "iris_eye" "p" 0).1 =
      cexScene3.getAttr ("ScaleU_corr_eye1" ++ ".outputX") 0 ∧
    (get_scale_uv cexScene3 "iris_eye" "p" 0).2 =
      cexScene3.getAttr ("p" ++ ".repeatV") 0 := by
  have h := claim_C3_amended cexScene3 "iris_eye" "p" 0
  exact ⟨(h.1 "ScaleU_corr_eye1" (by decide)).1, h.2.2.2 (by decide)⟩

theorem stateAt_eq_map_attrVal (s : Scene) (fn place : String) (f : Int)
    (img ou ov su sv r : Bool) :
    ExtractionAnimData.stateAt s (run_export_options img ou ov su sv r) fn place f =
      (run_export_options img ou ov su sv r).map (ExtractionAnimData.attrVal s fn place f) := by
  cases img <;> cases ou <;> cases ov <;> cases su <;> cases sv <;> cases r <;> rfl

theorem run_export_options_sublist (img ou ov su sv r : Bool) :
    (run_export_options img ou ov su sv r).Sublist canonicalOptions := by
  cases img <;> cases ou <;> cases ov <;> cases su <;> cases sv <;> cases r <;> decide

theorem frameRange_ne_nil (start stop : Int) (h : start ≤ stop) :
    frameRange start stop ≠ [] := by
  unfold frameRange
  simp only [ne_eq, List.map_eq_nil_iff, List.range_eq_nil]
  omega

theorem exportLoop_ne_nil (c : Bool) (sample : Int → List (Option Int))
    (frames : List Int) (h : frames ≠ []) :
    exportLoop c sample frames none ≠ [] := by
  cases frames with
  | nil => exact absurd rfl h
  | cons f fs =>
    unfold exportLoop
    rw [if_pos (Or.inr (by simp))]
    simp

theorem exportLoop_mem_snd (c : Bool) (sample : Int → List (Option Int)) :
    ∀ (frames : List Int) (last : Option (List (Option Int))) (p : Int × List (Option Int)),
      p ∈ exportLoop c sample frames last → p.2 = sample p.1 := by
  intro frames
  induction frames with
  | nil => intro last p hp; simp [exportLoop] at hp
  | cons f fs ih =>
    intro last p hp
    unfold exportLoop at hp
    by_cases hcond : (c = true ∨ some (sample f) ≠ last)
    · rw [if_pos hcond] at hp
      rcases List.mem_cons.mp hp with rfl | hp2
      · rfl
      · exact ih _ p hp2
    · rw [if_neg hcond] at hp
      exact ih _ p hp

theorem stateAt_final_no_corr (s : Scene) (fn place : String) (f : Int)
    (hT : s.lsTransCorr = []) (hU : s.lsScaleUCorr = []) (hV : s.lsScaleVCorr = [])
    (img ou ov su sv r : Bool) :
    ExtractionAnimDataFinal.stateAt s (run_export_options img ou ov su sv r) fn place f =
      ExtractionAnimData.stateAt s (run_export_options img ou ov su sv r) fn place f := by
  have hoc : findCorr (keyword_from_names fn place) s.lsTransCorr = none :=
    findCorr_none_of _ _ (by simp [hT])
  have ho : get_offset_uv s fn place f =
      (s.getAttr (place ++ ".offsetU") f, s.getAttr (place ++ ".offsetV") f) := by
    rw [hT] at hoc
    simp [get_offset_uv, hT, hoc]
  have hmu : lastMatch (keyword_from_names fn place) s.lsScaleUCorr = none :=
    lastMatch_none_of _ _ (by simp [hU])
  have hmv : lastMatch (keyword_from_names fn place) s.lsScaleVCorr = none :=
    lastMatch_none_of _ _ (by simp [hV])
  have hs : get_scale_uv s fn place f =
      (s.getAttr (place ++ ".repeatU") f, s.getAttr (place ++ ".repeatV") f) := by
    simp [get_scale_uv, hmu, hmv]
  cases img <;> cases ou <;> cases ov <;> cases su <;> cases sv <;> cases r <;>
    simp [run_export_options, ExtractionAnimDataFinal.stateAt,
      ExtractionAnimDataFinal.currentVal, ExtractionAnimData.stateAt, ho, hs]

/-- C5: when the scene lists no Translation_Corr_*, ScaleU_corr_* or
ScaleV_corr_* correction node, the second variant's per-frame state equals
the first variant's direct place2dTexture reads, and for the same scene
state, options (as built by run_export), metadata flags and frame mode both
variants write identical data-table file bodies for a texture. -/
theorem claim_C5_equiv (s : Scene) (export_path : String)
    (texBoxes : String → Option Bool) (meta : MetaFlags) (collect_all : Bool)
    (geo mat fn : String) (img ou ov su sv r : Bool)
    (hT : s.lsTransCorr = []) (hU : s.lsScaleUCorr = []) (hV : s.lsScaleVCorr = []) :
    (∀ place f,
      ExtractionAnimDataFinal.stateAt s (run_export_options img ou ov su sv r) fn place f =
        ExtractionAnimData.stateAt s (run_export_options img ou ov su sv r) fn place f) ∧
    (s.pbMin ≤ s.pbMax →
      (ExtractionAnimData.processTexture s export_path texBoxes
          (run_export_options img ou ov su sv r) meta collect_all geo mat fn).2 =
        (ExtractionAnimDataFinal.processTexture s export_path texBoxes
          (run_export_options img ou ov su sv r) meta "datatable" collect_all geo mat fn).2) := by
  constructor
  · intro place f
    exact stateAt_final_no_corr s fn place f hT hU hV img ou ov su sv r
  · intro hrange
    cases hbox : texBoxes fn with
    | none =>
      simp [ExtractionAnimData.processTexture, ExtractionAnimDataFinal.processTexture, hbox]
    | some checked =>
      cases checked with
      | false =>
        simp [ExtractionAnimData.processTexture, ExtractionAnimDataFinal.processTexture, hbox]
      | true =>
        cases hpl : get_place2d s fn with
        | none =>
          simp [ExtractionAnimData.processTexture, ExtractionAnimDataFinal.processTexture,
            hbox, hpl]
        | some place =>
          have hse : ExtractionAnimData.stateAt s (run_export_options img ou ov su sv r) fn place =
              ExtractionAnimDataFinal.stateAt s (run_export_options img ou ov su sv r) fn place :=
            funext fun f =>
              (stateAt_final_no_corr s fn place f hT hU hV img ou ov su sv r).symm
          have hker : exportLoop collect_all
              (ExtractionAnimData.stateAt s (run_export_options img ou ov su sv r) fn place)
              (frameRange s.pbMin s.pbMax) none =
              ExtractionAnimDataFinal.kept s (run_export_options img ou ov su sv r) fn place
                collect_all := by
            unfold ExtractionAnimDataFinal.kept
            rw [hse]
          have hne : (exportLoop collect_all
              (ExtractionAnimData.stateAt s (run_export_options img ou ov su sv r) fn place)
              (frameRange s.pbMin s.pbMax) none).map
                (fun fr => mkRow meta geo mat fn fr.1 fr.2) ≠ [] := by
            simp only [ne_eq, List.map_eq_nil_iff]
            exact exportLoop_ne_nil collect_all _ _ (frameRange_ne_nil _ _ hrange)
          simp only [ExtractionAnimData.processTexture, ExtractionAnimDataFinal.processTexture,
            hbox, hpl]
          rw [if_neg hne]
          simp [ExtractionAnimDataFinal.fileContent, hker]

theorem headerRow_length (meta : MetaFlags) (options : List String) (geo mat fn : String) :
    (headerRow meta options).length =
      1 + (metaCells meta geo mat fn).length + options.length := by
  cases meta with
  | mk g m2 f2 =>
    cases g <;> cases m2 <;> cases f2 <;> simp [headerRow, metaCells] <;> omega

theorem stateAt_length (s : Scene) (fn place : String) (f : Int)
    (img ou ov su sv r : Bool) :
    (ExtractionAnimData.stateAt s (run_export_options img ou ov su sv r) fn place f).length =
      (run_export_options img ou ov su sv r).length := by
  rw [stateAt_eq_map_attrVal]
  exact List.length_map _ _

/-- C6: for a qualifying texture (checked, with a place2d connection) and a
non-empty playback range, each variant performs exactly one file write, at
`csv_path` (the join of the export-path directory with the extension-free
base name, an underscore, the file-node name and `.csv`); the file body is
the header row (starting with `Frame`; option names in the fixed run_export
order, a sublist of `canonicalOptions`) followed by data rows that all have
exactly as many fields as the header. -/
theorem claim_C6_csv (s : Scene) (export_path : String) (texBoxes : String → Option Bool)
    (meta : MetaFlags) (collect_all : Bool) (geo mat fn place : String)
    (img ou ov su sv r : Bool)
    (hbox : texBoxes fn = some true) (hpl : get_place2d s fn = some place)
    (hrange : s.pbMin ≤ s.pbMax) :
    (run_export_options img ou ov su sv r).Sublist canonicalOptions ∧
    (headerRow meta (run_export_options img ou ov su sv r)).head? =
      some (Cell.txt "Frame") ∧
    (∃ rows, rows ≠ [] ∧
      (ExtractionAnimData.processTexture s export_path texBoxes
          (run_export_options img ou ov su sv r) meta collect_all geo mat fn).2 =
        [(csv_path export_path fn,
          headerRow meta (run_export_options img ou ov su sv r) :: rows)] ∧
      ∀ row ∈ rows,
        row.length = (headerRow meta (run_export_options img ou ov su sv r)).length) ∧
    (∃ rows2, rows2 ≠ [] ∧
      (ExtractionAnimDataFinal.processTexture s export_path texBoxes
          (run_export_options img ou ov su sv r) meta "datatable" collect_all geo mat fn).2 =
        [(csv_path export_path fn,
          headerRow meta (run_export_options img ou ov su sv r) :: rows2)] ∧
      ∀ row ∈ rows2,
        row.length = (headerRow meta (run_export_options img ou ov su sv r)).length) := by
  refine ⟨run_export_options_sublist img ou ov su sv r, rfl, ?_, ?_⟩
  · refine ⟨(exportLoop collect_all
        (ExtractionAnimData.stateAt s (run_export_options img ou ov su sv r) fn place)
        (frameRange s.pbMin s.pbMax) none).map
          (fun fr => mkRow meta geo mat fn fr.1 fr.2), ?_, ?_, ?_⟩
    · simp only [ne_eq, List.map_eq_nil_iff]
      exact exportLoop_ne_nil collect_all _ _ (frameRange_ne_nil _ _ hrange)
    · have hne : (exportLoop collect_all
          (ExtractionAnimData.stateAt s (run_export_options img ou ov su sv r) fn place)
          (frameRange s.pbMin s.pbMax) none).map
            (fun fr => mkRow meta geo mat fn fr.1 fr.2) ≠ [] := by
        simp only [ne_eq, List.map_eq_nil_iff]
        exact exportLoop_ne_nil collect_all _ _ (frameRange_ne_nil _ _ hrange)
      simp [ExtractionAnimData.processTexture, hbox, hpl, hne]
    · intro row hrow
      obtain ⟨p, hp, rfl⟩ := List.mem_map.mp hrow
      have hsnd := exportLoop_mem_snd collect_all _ _ _ p hp
      rw [headerRow_length meta _ geo mat fn]
      simp only [mkRow, List.length_cons, List.length_append, List.length_map]
      rw [hsnd, stateAt_length]
      omega
  · refine ⟨(ExtractionAnimDataFinal.kept s (run_export_options img ou ov su sv r) fn place
        collect_all).map (fun fr => mkRow meta geo mat fn fr.1 fr.2), ?_, ?_, ?_⟩
    · simp only [ne_eq, List.map_eq_nil_iff]
      exact exportLoop_ne_nil collect_all _ _ (frameRange_ne_nil _ _ hrange)
    · simp [ExtractionAnimDataFinal.processTexture, hbox, hpl,
        ExtractionAnimDataFinal.fileContent]
    · intro row hrow
      obtain ⟨p, hp, rfl⟩ := List.mem_map.mp hrow
      have hsnd := exportLoop_mem_snd collect_all _ _ _ p hp
      rw [headerRow_length meta _ geo mat fn]
      simp only [mkRow, List.length_cons, List.length_append, List.length_map]
      rw [hsnd]
      simp only [ExtractionAnimDataFinal.stateAt, List.length_map]
      omega

/-- Closed instance of `claim_C5_equiv` at `demoScene`, whose scene has no
correction nodes: both variants write the same data-table file body. -/
theorem claim_C5_witness :
    (ExtractionAnimData.processTexture demoScene "dir/out.csv" (fun _ => some true)
        (run_export_options true true true true true true) ⟨true, true, true⟩ true
        "geoA" "matA" "fileA").2 =
      (ExtractionAnimDataFinal.processTexture demoScene "dir/out.csv" (fun _ => some true)
        (run_export_options true true true true true true) ⟨true, true, true⟩ "datatable" true
        "geoA" "matA" "fileA").2 :=
  (claim_C5_equiv demoScene "dir/out.csv" (fun _ => some true) ⟨true, true, true⟩ true
    "geoA" "matA" "fileA" true true true true true true rfl rfl rfl).2 (by decide)

/-- Closed instance of `claim_C6_csv` at `demoScene`: the single file write,
its path, header head and uniform row lengths. -/
theorem claim_C6_witness :
    ∃ rows, rows ≠ [] ∧
      (ExtractionAnimData.processTexture demoScene "dir/out.csv" (fun _ => some true)
          (run_export_options true true true true true true) ⟨true, true, true⟩ true
          "geoA" "matA" "fileA").2 =
        [(csv_path "dir/out.csv" "fileA",
          headerRow ⟨true, true, true⟩
            (run_export_options true true true true true true) :: rows)] ∧
      ∀ row ∈ rows,
        row.length = (headerRow ⟨true, true, true⟩
          (run_export_options true true true true true true)).length :=
  (claim_C6_csv demoScene "dir/out.csv" (fun _ => some true) ⟨true, true, true⟩ true
    "geoA" "matA" "fileA" "place2dA" true true true true true true rfl (by decide)
    (by decide)).2.2.1

theorem scene_eq_of (s1 s2 : Scene)
    (h1 : ∀ a f, s1.getAttr a f = s2.getAttr a f)
    (h2 : ∀ a, s1.objExists a = s2.objExists a)
    (h3 : ∀ a, s1.listConn a = s2.listConn a)
    (h4 : s1.selList = s2.selList)
    (h5 : ∀ g, s1.materialsOf g = s2.materialsOf g)
    (h6 : ∀ m, s1.fileTexturesOf m = s2.fileTexturesOf m)
    (h7 : s1.lsTransCorr = s2.lsTransCorr)
    (h8 : s1.lsScaleUCorr = s2.lsScaleUCorr)
    (h9 : s1.lsScaleVCorr = s2.lsScaleVCorr)
    (h10 : s1.pbMin = s2.pbMin)
    (h11 : s1.pbMax = s2.pbMax) : s1 = s2 := by
  cases s1
  cases s2
  simp only [Scene.mk.injEq]
  refine ⟨funext fun a => funext fun f => h1 a f, funext fun a => h2 a,
    funext fun a => h3 a, h4, funext fun g => h5 g, funext fun m => h6 m,
    h7, h8, h9, h10, h11⟩

/-- C7: both `export_textures` variants are deterministic functions of the
host responses and the explicit arguments: two scenes answering every query
identically produce identical outputs, including byte-identical serialized
CSV contents; nothing else influences the result. -/
theorem claim_C7_determinism (s1 s2 : Scene) (export_path : String)
    (texBoxes : String → Option Bool) (options : List String) (meta : MetaFlags)
    (export_mode : String) (collect_all : Bool)
    (h1 : ∀ a f, s1.getAttr a f = s2.getAttr a f)
    (h2 : ∀ a, s1.objExists a = s2.objExists a)
    (h3 : ∀ a, s1.listConn a = s2.listConn a)
    (h4 : s1.selList = s2.selList)
    (h5 : ∀ g, s1.materialsOf g = s2.materialsOf g)
    (h6 : ∀ m, s1.fileTexturesOf m = s2.fileTexturesOf m)
    (h7 : s1.lsTransCorr = s2.lsTransCorr)
    (h8 : s1.lsScaleUCorr = s2.lsScaleUCorr)
    (h9 : s1.lsScaleVCorr = s2.lsScaleVCorr)
    (h10 : s1.pbMin = s2.pbMin)
    (h11 : s1.pbMax = s2.pbMax) :
    ExtractionAnimData.export_textures s1 export_path texBoxes options meta collect_all =
      ExtractionAnimData.export_textures s2 export_path texBoxes options meta collect_all ∧
    ExtractionAnimDataFinal.export_textures s1 export_path texBoxes options meta
        export_mode collect_all =
      ExtractionAnimDataFinal.export_textures s2 export_path texBoxes options meta
        export_mode collect_all ∧
    (ExtractionAnimData.export_textures s1 export_path texBoxes options meta
        collect_all).files.map (fun pr => (pr.1, csvRender pr.2)) =
      (ExtractionAnimData.export_textures s2 export_path texBoxes options meta
        collect_all).files.map (fun pr => (pr.1, csvRender pr.2)) ∧
    (ExtractionAnimDataFinal.export_textures s1 export_path texBoxes options meta
        export_mode collect_all).files.map (fun pr => (pr.1, csvRender pr.2)) =
      (ExtractionAnimDataFinal.export_textures s2 export_path texBoxes options meta
        export_mode collect_all).files.map (fun pr => (pr.1, csvRender pr.2)) := by
  have hs : s1 = s2 := scene_eq_of s1 s2 h1 h2 h3 h4 h5 h6 h7 h8 h9 h10 h11
  subst hs
  exact ⟨rfl, rfl, rfl, rfl⟩

/-- Closed instance of `claim_C7_determinism` at `demoScene` against
itself (all response-agreement hypotheses hold by `rfl`). -/
theorem claim_C7_witness :
    ExtractionAnimData.export_textures demoScene "dir/out.csv" (fun _ => some true)
        canonicalOptions ⟨true, true, true⟩ true =
      ExtractionAnimData.export_textures demoScene "dir/out.csv" (fun _ => some true)
        canonicalOptions ⟨true, true, true⟩ true :=
  (claim_C7_determinism demoScene demoScene "dir/out.csv" (fun _ => some true)
    canonicalOptions ⟨true, true, true⟩ "datatable" true (fun _ _ => rfl) (fun _ => rfl)
    (fun _ => rfl) rfl (fun _ => rfl) (fun _ => rfl) rfl rfl rfl rfl rfl).1

/-- C9: in the second variant, curve mode and data-table mode record the
same frames: the frame cells of the data-table rows are exactly
`curve_frames`; each option's `curve_values` has one entry per recorded
frame, namely the value sampled at the corresponding frame; so every row of
the curve CSV has length `1 +` the number of recorded frames. -/
theorem claim_C9_curve (s : Scene) (options : List String) (meta : MetaFlags)
    (collect_all : Bool) (geo mat fn place : String) :
    ((ExtractionAnimDataFinal.fileContent s options meta "datatable" collect_all
        geo mat fn place).tail.map (fun row => row.head?) =
      (ExtractionAnimDataFinal.curveFrames s options fn place collect_all).map
        (fun f => some (Cell.num f))) ∧
    (∀ opt, (ExtractionAnimDataFinal.curveValues s options fn place collect_all opt).length =
      (ExtractionAnimDataFinal.curveFrames s options fn place collect_all).length) ∧
    (∀ opt, ExtractionAnimDataFinal.curveValues s options fn place collect_all opt =
      (ExtractionAnimDataFinal.curveFrames s options fn place collect_all).map
        (fun f => ExtractionAnimDataFinal.currentVal s fn place f opt)) ∧
    (∀ row ∈ ExtractionAnimDataFinal.fileContent s options meta "curve" collect_all
        geo mat fn place,
      row.length =
        1 + (ExtractionAnimDataFinal.curveFrames s options fn place collect_all).length) := by
  refine ⟨?_, ?_, ?_, ?_⟩
  · simp [ExtractionAnimDataFinal.fileContent, ExtractionAnimDataFinal.curveFrames,
      mkRow, List.map_map, Function.comp]
  · intro opt
    simp [ExtractionAnimDataFinal.curveValues, ExtractionAnimDataFinal.curveFrames]
  · intro opt
    simp [ExtractionAnimDataFinal.curveValues, ExtractionAnimDataFinal.curveFrames,
      List.map_map, Function.comp]
  · intro row hrow
    simp only [ExtractionAnimDataFinal.fileContent] at hrow
    rw [if_neg (by decide)] at hrow
    rcases List.mem_cons.mp hrow with rfl | hrow2
    · simp [ExtractionAnimDataFinal.curveFrames]
      omega
    · obtain ⟨opt, hopt, rfl⟩ := List.mem_map.mp hrow2
      simp [ExtractionAnimDataFinal.curveValues, ExtractionAnimDataFinal.curveFrames]
      omega

/-- Closed instance of `claim_C9_curve` at `demoScene` with the OffsetU
option: values align with frames, and the concrete frame list is 1..3. -/
theorem claim_C9_witness :
    (ExtractionAnimDataFinal.curveValues demoScene ["OffsetU"] "fileA" "place2dA" true
        "OffsetU").length =
      (ExtractionAnimDataFinal.curveFrames demoScene ["OffsetU"] "fileA" "place2dA"
        true).length ∧
    ExtractionAnimDataFinal.curveFrames demoScene ["OffsetU"] "fileA" "place2dA" true =
      [1, 2, 3] := by
  refine ⟨(claim_C9_curve demoScene ["OffsetU"] ⟨true, true, true⟩ true
    "geoA" "matA" "fileA" "place2dA").2.1 "OffsetU", ?_⟩
  decide
